import Mathlib

/-!
Verification development for the edgar-query repository, which consists of two
manual test scripts, src/simple-mcp-test.py and src/test-mcp.py.  Each script
pipes three newline-delimited JSON-RPC messages into a subprocess, reads its
standard output, and scans the output line by line with best-effort JSON
parsing.

The embedding below models:
  - JSON values as parsed by the Python json module (numbers are modelled as
    integers; JSON documents containing fractional or exponent number literals
    are treated as unparseable, and string escape handling ignores surrogate
    pairs);
  - the relevant Python operations on parsed values (the in operator,
    subscripting, dict.get, len, slicing, iteration, equality with an int,
    truthiness), each returning an exception where Python would raise one;
  - the three scanning loops of the scripts, instrumented with the lines they
    pass to json.loads, the lines they print, the response that triggered a
    match, and the uncaught exception if any;
  - the observable effects of a run (launching the container, writing to its
    stdin, waiting with a timeout, killing it, printing) as an explicit trace,
    parameterised by the outcome of the subprocess call.
-/

mutual

/-- JSON values.  Objects keep their members in textual order; duplicate keys
are kept, and lookup returns the last occurrence, matching the way repeated
keys overwrite earlier ones when Python builds the dict. -/
inductive Json where
  | null : Json
  | bool (b : Bool) : Json
  | num (n : Int) : Json
  | str (s : String) : Json
  | arr (xs : JsonList) : Json
  | obj (kvs : JsonObj) : Json

inductive JsonList where
  | nil : JsonList
  | cons (hd : Json) (tl : JsonList) : JsonList

inductive JsonObj where
  | nil : JsonObj
  | cons (k : String) (v : Json) (tl : JsonObj) : JsonObj

end

def JsonList.length : JsonList → Nat
  | .nil => 0
  | .cons _ tl => tl.length + 1

def JsonList.take : Nat → JsonList → JsonList
  | 0, _ => .nil
  | _, .nil => .nil
  | n + 1, .cons x tl => .cons x (JsonList.take n tl)

def JsonList.toList : JsonList → List Json
  | .nil => []
  | .cons x tl => x :: tl.toList

def JsonObj.length : JsonObj → Nat
  | .nil => 0
  | .cons _ _ tl => tl.length + 1

/-- Key lookup in an object; the last occurrence of a duplicate key wins,
as in a Python dict built by repeated insertion. -/
def JsonObj.find : JsonObj → String → Option Json
  | .nil, _ => none
  | .cons k v tl, key =>
    match JsonObj.find tl key with
    | some r => some r
    | none => if k = key then some v else none

def JsonObj.hasKey (kvs : JsonObj) (key : String) : Bool :=
  (kvs.find key).isSome

/-! ## A model of json.loads

A fuel-based recursive-descent parser for JSON documents, following the
grammar accepted by the Python json module, except that only integer number
literals are modelled (a fractional part or exponent makes the parse fail)
and a lone \u escape never combines surrogate pairs. -/

def isWsChar (c : Char) : Bool :=
  c = ' ' || c = '\t' || c = '\n' || c = '\r'

def skipWs : List Char → List Char
  | [] => []
  | c :: cs => if isWsChar c then skipWs cs else c :: cs

def hexVal (c : Char) : Option Nat :=
  if '0' ≤ c ∧ c ≤ '9' then some (c.toNat - 48)
  else if 'a' ≤ c ∧ c ≤ 'f' then some (c.toNat - 87)
  else if 'A' ≤ c ∧ c ≤ 'F' then some (c.toNat - 55)
  else none

def escChar : Char → Option Char
  | '\x22' => some '\x22'
  | '\\' => some '\\'
  | '/' => some '/'
  | 'b' => some (Char.ofNat 8)
  | 'f' => some (Char.ofNat 12)
  | 'n' => some '\n'
  | 'r' => some '\r'
  | 't' => some '\t'
  | _ => none

/-- Body of a JSON string literal, after the opening quote.  Returns the
decoded string and the input after the closing quote. -/
def parseStrBody : Nat → List Char → Option (String × List Char)
  | 0, _ => none
  | _ + 1, [] => none
  | _ + 1, '\x22' :: rest => some ("", rest)
  | n + 1, '\\' :: rest =>
    match rest with
    | 'u' :: h1 :: h2 :: h3 :: h4 :: rest2 =>
      match hexVal h1, hexVal h2, hexVal h3, hexVal h4 with
      | some a, some b, some c, some d =>
        match parseStrBody n rest2 with
        | some (s, r) => some (⟨Char.ofNat (((a * 16 + b) * 16 + c) * 16 + d) :: s.data⟩, r)
        | none => none
      | _, _, _, _ => none
    | e :: rest2 =>
      match escChar e with
      | some c =>
        match parseStrBody n rest2 with
        | some (s, r) => some (⟨c :: s.data⟩, r)
        | none => none
      | none => none
    | [] => none
  | n + 1, c :: rest =>
    if c.toNat < 32 then none
    else
      match parseStrBody n rest with
      | some (s, r) => some (⟨c :: s.data⟩, r)
      | none => none

def takeDigits : List Char → List Char × List Char
  | [] => ([], [])
  | c :: cs =>
    if c.isDigit then
      let (ds, r) := takeDigits cs
      (c :: ds, r)
    else ([], c :: cs)

def digitsToNat (ds : List Char) : Nat :=
  ds.foldl (fun a c => a * 10 + (c.toNat - 48)) 0

/-- Integer number literals.  A leading zero followed by more digits is
rejected as in JSON; a following dot or exponent marker makes the whole
parse fail, since non-integer numbers are outside this model. -/
def parseNum (cs : List Char) : Option (Json × List Char) :=
  let (neg, cs1) := match cs with
    | '-' :: r => (true, r)
    | _ => (false, cs)
  let (ds, rest) := takeDigits cs1
  match ds with
  | [] => none
  | d :: ds' =>
    if d = '0' && !ds'.isEmpty then none
    else
      match rest with
      | '.' :: _ => none
      | 'e' :: _ => none
      | 'E' :: _ => none
      | _ => some (.num (if neg then -(digitsToNat ds : Int) else (digitsToNat ds : Int)), rest)

mutual

def parseValue : Nat → List Char → Option (Json × List Char)
  | 0, _ => none
  | n + 1, cs =>
    match cs with
    | [] => none
    | c :: rest =>
      if c = '\x7b' then
        match skipWs rest with
        | '\x7d' :: r2 => some (.obj .nil, r2)
        | r2 =>
          match parseMembers n r2 with
          | some (kvs, r3) => some (.obj kvs, r3)
          | none => none
      else if c = '[' then
        match skipWs rest with
        | ']' :: r2 => some (.arr .nil, r2)
        | r2 =>
          match parseElems n r2 with
          | some (xs, r3) => some (.arr xs, r3)
          | none => none
      else if c = '\x22' then
        match parseStrBody (rest.length + 1) rest with
        | some (s, r2) => some (.str s, r2)
        | none => none
      else if c = 't' then
        match rest with
        | 'r' :: 'u' :: 'e' :: r2 => some (.bool true, r2)
        | _ => none
      else if c = 'f' then
        match rest with
        | 'a' :: 'l' :: 's' :: 'e' :: r2 => some (.bool false, r2)
        | _ => none
      else if c = 'n' then
        match rest with
        | 'u' :: 'l' :: 'l' :: r2 => some (.null, r2)
        | _ => none
      else if c = '-' || c.isDigit then parseNum cs
      else none

def parseElems : Nat → List Char → Option (JsonList × List Char)
  | 0, _ => none
  | n + 1, cs =>
    match parseValue n (skipWs cs) with
    | some (v, r1) =>
      match skipWs r1 with
      | ',' :: r2 =>
        match parseElems n r2 with
        | some (xs, r3) => some (.cons v xs, r3)
        | none => none
      | ']' :: r2 => some (.cons v .nil, r2)
      | _ => none
    | none => none

def parseMembers : Nat → List Char → Option (JsonObj × List Char)
  | 0, _ => none
  | n + 1, cs =>
    match cs with
    | '\x22' :: rest =>
      match parseStrBody (rest.length + 1) rest with
      | some (k, r1) =>
        match skipWs r1 with
        | ':' :: r2 =>
          match parseValue n (skipWs r2) with
          | some (v, r3) =>
            match skipWs r3 with
            | ',' :: r4 =>
              match parseMembers n (skipWs r4) with
              | some (kvs, r6) => some (.cons k v kvs, r6)
              | none => none
            | '\x7d' :: r4 => some (.cons k v .nil, r4)
            | _ => none
          | none => none
        | _ => none
      | none => none
    | _ => none

end

/-- Model of Python json.loads: parse one JSON document, allowing leading and
trailing whitespace and nothing else; any failure (including trailing junk)
is a JSONDecodeError, modelled as none. -/
def json_loads (s : String) : Option Json :=
  match parseValue (2 * s.length + 4) (skipWs s.data) with
  | some (v, rest) => if (skipWs rest).isEmpty then some v else none
  | none => none

example : json_loads "\x7b\x22id\x22: 2\x7d" = some (.obj (.cons "id" (.num 2) .nil)) := by rfl
example : json_loads "notjson" = none := by rfl
example : json_loads " [1, true, null, \x22a\x22]" =
    some (.arr (.cons (.num 1) (.cons (.bool true) (.cons .null (.cons (.str "a") .nil))))) := by rfl
example : json_loads "\x7b\x22a\x22: 1" = none := by rfl
example : json_loads "1.5" = none := by rfl

/-! ## A model of json.dumps

Python json.dumps with its default settings (ensure_ascii true, separators
a comma-space and a colon-space), and the indent=2 variant used when the
scripts print a matched response (with indent, the item separator is a bare
comma followed by a newline).  Characters above the basic multilingual plane
are escaped as a single \u item rather than a surrogate pair. -/

def hexDigit (n : Nat) : Char :=
  if n < 10 then Char.ofNat (48 + n) else Char.ofNat (87 + n)

def hex4 (n : Nat) : String :=
  ⟨[hexDigit (n / 4096 % 16), hexDigit (n / 256 % 16), hexDigit (n / 16 % 16), hexDigit (n % 16)]⟩

def escJsonChar (c : Char) : String :=
  if c = '\x22' then "\\\x22"
  else if c = '\\' then "\\\\"
  else if c = '\n' then "\\n"
  else if c = '\r' then "\\r"
  else if c = '\t' then "\\t"
  else if c = Char.ofNat 8 then "\\b"
  else if c = Char.ofNat 12 then "\\f"
  else if c.toNat < 32 || 127 ≤ c.toNat then "\\u" ++ hex4 c.toNat
  else ⟨[c]⟩

def escString (s : String) : String :=
  String.join (s.data.map escJsonChar)

def strLit (s : String) : String :=
  "\x22" ++ escString s ++ "\x22"

def spaces (n : Nat) : String :=
  ⟨List.replicate n ' '⟩

mutual

def jsonDumps : Json → String
  | .null => "null"
  | .bool true => "true"
  | .bool false => "false"
  | .num n => toString n
  | .str s => strLit s
  | .arr .nil => "[]"
  | .arr xs => "[" ++ dumpsElems xs ++ "]"
  | .obj .nil => "\x7b\x7d"
  | .obj kvs => "\x7b" ++ dumpsPairs kvs ++ "\x7d"

def dumpsElems : JsonList → String
  | .nil => ""
  | .cons x .nil => jsonDumps x
  | .cons x tl => jsonDumps x ++ ", " ++ dumpsElems tl

def dumpsPairs : JsonObj → String
  | .nil => ""
  | .cons k v .nil => strLit k ++ ": " ++ jsonDumps v
  | .cons k v tl => strLit k ++ ": " ++ jsonDumps v ++ ", " ++ dumpsPairs tl

end

mutual

def dumpsInd : Nat → Json → String
  | _, .null => "null"
  | _, .bool true => "true"
  | _, .bool false => "false"
  | _, .num n => toString n
  | _, .str s => strLit s
  | _, .arr .nil => "[]"
  | ind, .arr xs => "[\n" ++ dumpsIndElems (ind + 2) xs ++ "\n" ++ spaces ind ++ "]"
  | _, .obj .nil => "\x7b\x7d"
  | ind, .obj kvs => "\x7b\n" ++ dumpsIndPairs (ind + 2) kvs ++ "\n" ++ spaces ind ++ "\x7d"

def dumpsIndElems : Nat → JsonList → String
  | _, .nil => ""
  | ind, .cons x .nil => spaces ind ++ dumpsInd ind x
  | ind, .cons x tl => spaces ind ++ dumpsInd ind x ++ ",\n" ++ dumpsIndElems ind tl

def dumpsIndPairs : Nat → JsonObj → String
  | _, .nil => ""
  | ind, .cons k v .nil => spaces ind ++ strLit k ++ ": " ++ dumpsInd ind v
  | ind, .cons k v tl => spaces ind ++ strLit k ++ ": " ++ dumpsInd ind v ++ ",\n" ++ dumpsIndPairs ind tl

end

example : jsonDumps (.obj (.cons "a" (.num 1) (.cons "b" (.arr (.cons (.num 2) .nil)) .nil))) =
    "\x7b\x22a\x22: 1, \x22b\x22: [2]\x7d" := by rfl
example : dumpsInd 0 (.obj (.cons "a" (.arr (.cons (.num 1) .nil)) .nil)) =
    "\x7b\n  \x22a\x22: [\n    1\n  ]\n\x7d" := by rfl

/-! ## Python value rendering inside f-strings

Used only for the interpolated pieces of the printed lines.  str() of a
string is the string itself; any other value is rendered through its repr,
with quoting of nested strings simplified to a plain single quote. -/

mutual

def pyRepr : Json → String
  | .null => "None"
  | .bool true => "True"
  | .bool false => "False"
  | .num n => toString n
  | .str s => "\x27" ++ s ++ "\x27"
  | .arr .nil => "[]"
  | .arr xs => "[" ++ pyReprElems xs ++ "]"
  | .obj .nil => "\x7b\x7d"
  | .obj kvs => "\x7b" ++ pyReprPairs kvs ++ "\x7d"

def pyReprElems : JsonList → String
  | .nil => ""
  | .cons x .nil => pyRepr x
  | .cons x tl => pyRepr x ++ ", " ++ pyReprElems tl

def pyReprPairs : JsonObj → String
  | .nil => ""
  | .cons k v .nil => "\x27" ++ k ++ "\x27: " ++ pyRepr v
  | .cons k v tl => "\x27" ++ k ++ "\x27: " ++ pyRepr v ++ ", " ++ pyReprPairs tl

end

def pyStr : Json → String
  | .str s => s
  | v => pyRepr v

/-! ## Python operations on parsed values

Each operation is modelled with the exception Python would raise, so the
scanning loops can be stated and evaluated on every possible parsed value.
Exception message texts are abbreviated. -/

inductive PyErr where
  | keyError (k : String)
  | typeError (msg : String)
  | attributeError (msg : String)
deriving DecidableEq, Repr

/-- str() of an exception, as used by the catch-all print in
simple-mcp-test.py: str of a KeyError is the quoted key. -/
def errStr : PyErr → String
  | .keyError k => "\x27" ++ k ++ "\x27"
  | .typeError m => m
  | .attributeError m => m

def listStartsW : List Char → List Char → Bool
  | [], _ => true
  | _ :: _, [] => false
  | a :: as, b :: bs => a = b && listStartsW as bs

def listHasSub (needle : List Char) : List Char → Bool
  | [] => needle.isEmpty
  | c :: rest => listStartsW needle (c :: rest) || listHasSub needle rest

/-- Python substring membership: needle in hay. -/
def strIn (needle hay : String) : Bool :=
  listHasSub needle.data hay.data

/-- Python s.startswith(p). -/
def pyStartsW (s p : String) : Bool :=
  listStartsW p.data s.data

/-- Python equality of a parsed value against a string literal, as used by
element membership in a list. -/
def pyEqStr (v : Json) (s : String) : Bool :=
  match v with
  | .str t => t = s
  | _ => false

def arrHasStr : JsonList → String → Bool
  | .nil, _ => false
  | .cons x tl, s => pyEqStr x s || arrHasStr tl s

/-- Python equality of a parsed value against an int literal; True equals 1
and False equals 0. -/
def pyEqIntV : Json → Int → Bool
  | .num n, k => n = k
  | .bool b, k => (if b then (1 : Int) else 0) = k
  | _, _ => false

def pyOptEqInt (o : Option Json) (k : Int) : Bool :=
  match o with
  | some v => pyEqIntV v k
  | none => false

/-- The Python in operator with a string on the left: key membership for a
dict, substring for a str, element membership for a list, TypeError
otherwise. -/
def pyIn (key : String) : Json → Except PyErr Bool
  | .obj kvs => .ok (kvs.hasKey key)
  | .str s => .ok (strIn key s)
  | .arr xs => .ok (arrHasStr xs key)
  | _ => .error (.typeError "argument of type is not iterable")

/-- Subscripting with a string key: dict lookup with KeyError on a missing
key; TypeError for str, list and everything else. -/
def pySubscript (v : Json) (key : String) : Except PyErr Json :=
  match v with
  | .obj kvs =>
    match kvs.find key with
    | some r => .ok r
    | none => .error (.keyError key)
  | .str _ => .error (.typeError "string indices must be integers")
  | .arr _ => .error (.typeError "list indices must be integers")
  | _ => .error (.typeError "object is not subscriptable")

/-- Python dict.get with one argument; AttributeError when the receiver is
not a dict. -/
def pyDictGet (v : Json) (key : String) : Except PyErr (Option Json) :=
  match v with
  | .obj kvs => .ok (kvs.find key)
  | _ => .error (.attributeError "object has no attribute get")

/-- Python len(). -/
def pyLen : Json → Except PyErr Nat
  | .arr xs => .ok xs.length
  | .obj kvs => .ok kvs.length
  | .str s => .ok s.length
  | _ => .error (.typeError "object has no len")

def strTake (n : Nat) (s : String) : String :=
  ⟨s.data.take n⟩

/-- Python slicing v[:n]. -/
def pySliceTake (n : Nat) (v : Json) : Except PyErr Json :=
  match v with
  | .str s => .ok (.str (strTake n s))
  | .arr xs => .ok (.arr (xs.take n))
  | _ => .error (.typeError "unhashable type slice")

/-- Python iteration over a value: list elements, characters of a str as
one-character strings, keys of a dict; TypeError otherwise. -/
def pyIterate : Json → Except PyErr (List Json)
  | .arr xs => .ok xs.toList
  | .str s => .ok (s.data.map fun c => .str ⟨[c]⟩)
  | .obj kvs => .ok (objKeys kvs)
  | _ => .error (.typeError "object is not iterable")
where
  objKeys : JsonObj → List Json
    | .nil => []
    | .cons k _ tl => .str k :: objKeys tl


/-! ## Observable effects and subprocess outcomes

A run of either script is modelled as a trace of effects.  The container is
outside the model, so the outcome of a subprocess call (the text captured
from its stdout and stderr, or expiry of the wall-clock timeout) is a
parameter.  The writeFile constructor is not produced by any function of
this development; it exists so that the absence of durable effects is a
statement about the trace and not about the vocabulary. -/

inductive Effect where
  | launch (cmd : List String)
  | writeStdin (data : String)
  | waitChild (timeoutSecs : Nat)
  | kill
  | printOut (s : String)
  | writeFile (path data : String)
deriving DecidableEq, Repr

inductive RunOutcome where
  | completed (stdout stderr : String)
  | timedOut
deriving DecidableEq, Repr

inductive CommOutcome where
  | completed (stdout stderr : String)
  | timedOut
deriving DecidableEq, Repr

/-- The docker command line, identical in both scripts. -/
def dockerCmd : List String :=
  ["docker", "run", "--rm", "-i",
   "-e", "SEC_EDGAR_USER_AGENT=EdgarAnswerEngine/2.0 (brett.vantil@crowe.com)",
   "stefanoamorelli/sec-edgar-mcp:latest"]

/-! ## simple-mcp-test.py -/

/-- The three request lines of simple-mcp-test.py, verbatim. -/
def simpleRequests : List String :=
  ["\x7b\x22jsonrpc\x22: \x222.0\x22, \x22id\x22: 1, \x22method\x22: \x22initialize\x22, \x22params\x22: \x7b\x22protocolVersion\x22: \x222024-11-05\x22, \x22capabilities\x22: \x7b\x7d, \x22clientInfo\x22: \x7b\x22name\x22: \x22test\x22, \x22version\x22: \x221.0.0\x22\x7d\x7d\x7d",
   "\x7b\x22jsonrpc\x22: \x222.0\x22, \x22method\x22: \x22notifications/initialized\x22\x7d",
   "\x7b\x22jsonrpc\x22: \x222.0\x22, \x22id\x22: 2, \x22method\x22: \x22tools/call\x22, \x22params\x22: \x7b\x22name\x22: \x22get_cik_by_ticker\x22, \x22arguments\x22: \x7b\x22ticker\x22: \x22AAPL\x22\x7d\x7d\x7d"]

/-- input_data, the newline join of the requests plus a trailing newline. -/
def simpleInput : String :=
  String.intercalate "\n" simpleRequests ++ "\n"

/-- Python s.strip(): drop leading and trailing whitespace. -/
def pyStrip (s : String) : String :=
  ⟨(skipWs (skipWs s.data).reverse).reverse⟩

/-- Python s.split of one newline: n separators produce n plus one pieces,
and the empty string produces one empty piece. -/
def splitNl : List Char → List String
  | [] => [""]
  | c :: cs =>
    let r := splitNl cs
    if c = '\n' then "" :: r
    else
      match r with
      | [] => [⟨[c]⟩]
      | l :: ls => (⟨c :: l.data⟩ : String) :: ls

/-- stdout.strip().split of one newline, producing the scanned lines. -/
def getLines (so : String) : List String :=
  splitNl (pyStrip so).data

/-- Result of one scanning loop: the lines printed, the lines handed to
json.loads in order, the response whose condition triggered the break or
return, and the uncaught exception if one was raised. -/
structure ScanResult where
  prints : List String
  attempted : List String
  matched : Option Json
  err : Option PyErr

/-- What one loop iteration does with its line: skip it (recording whether
json.loads was attempted on it), or end the loop with some prints, an
optional matching response and an optional uncaught exception. -/
inductive LineStep where
  | skip (attempted : Bool)
  | halt (prints : List String) (matched : Option Json) (err : Option PyErr)

def LineStep.isSkip : LineStep → Bool
  | .skip _ => true
  | .halt _ _ _ => false

/-- Whether the iteration hands its line to json.loads. -/
def LineStep.attemptsLine : LineStep → Bool
  | .skip a => a
  | .halt _ _ _ => true

/-- The common shape of the three scanning loops: run the per-line step on
each line in order until one halts the loop. -/
def scanLoop (step : String → LineStep) : List String → ScanResult
  | [] => ⟨[], [], none, none⟩
  | line :: rest =>
    match step line with
    | .skip true =>
      let r := scanLoop step rest
      ⟨r.prints, line :: r.attempted, r.matched, r.err⟩
    | .skip false =>
      let r := scanLoop step rest
      ⟨r.prints, r.attempted, r.matched, r.err⟩
    | .halt ps m e => ⟨ps, [line], m, e⟩

/-- Truthiness of line.strip() combined with line.startswith of an opening
curly bracket, the guard of the parsing attempt in simple-mcp-test.py. -/
def simpleCand (line : String) : Bool :=
  (line.data.any fun c => !isWsChar c) && pyStartsW line "\x7b"

/-- One iteration of the response loop of simple-mcp-test.py: guard, then
json.loads under an except clause for JSONDecodeError, then the id check
via dict.get; on a match, two prints and a return. -/
def simpleStep (line : String) : LineStep :=
  if simpleCand line then
    match json_loads line with
    | none => .skip true
    | some response =>
      match pyDictGet response "id" with
      | .error e => .halt [] none (some e)
      | .ok idv =>
        if pyOptEqInt idv 2 then
          .halt ["SUCCESS! Apple\x27s CIK data:", dumpsInd 0 response] (some response) none
        else .skip true
  else .skip false

def simpleScan : List String → ScanResult :=
  scanLoop simpleStep

/-- The whole of test_apple_cik as a trace, given the outcome of
subprocess.run.  The outer except clause catches TimeoutExpired separately
and any other exception via the catch-all print. -/
def test_apple_cik : RunOutcome → List Effect
  | .completed so se =>
    [.launch dockerCmd, .writeStdin simpleInput, .waitChild 15,
     .printOut "=== RAW OUTPUT ===",
     .printOut ("STDOUT: " ++ so),
     .printOut ("STDERR: " ++ se),
     .printOut "\n=== PARSED RESPONSES ==="]
    ++ (simpleScan (getLines so)).prints.map .printOut
    ++ (match (simpleScan (getLines so)).err with
        | some e => [.printOut ("Error: " ++ errStr e)]
        | none => [])
  | .timedOut =>
    [.launch dockerCmd, .writeStdin simpleInput, .waitChild 15, .kill,
     .printOut "Request timed out"]

/-! ## test-mcp.py -/

/-- The init_request dict of send_mcp_request. -/
def initRequest : Json :=
  .obj (.cons "jsonrpc" (.str "2.0")
       (.cons "id" (.num 1)
       (.cons "method" (.str "initialize")
       (.cons "params"
         (.obj (.cons "protocolVersion" (.str "2024-11-05")
               (.cons "capabilities" (.obj .nil)
               (.cons "clientInfo"
                 (.obj (.cons "name" (.str "test-client")
                       (.cons "version" (.str "1.0.0") .nil))) .nil))))
       .nil))))

/-- The init_notification dict of send_mcp_request. -/
def initNote : Json :=
  .obj (.cons "jsonrpc" (.str "2.0")
       (.cons "method" (.str "notifications/initialized") .nil))

/-- The joined input written to the subprocess by send_mcp_request. -/
def mcpInput (request : Json) : String :=
  jsonDumps initRequest ++ "\n" ++ jsonDumps initNote ++ "\n" ++ jsonDumps request ++ "\n"

/-- send_mcp_request: launch the container, write the three messages, wait
under the 30 second timeout; on expiry kill the process and return None with
the string Timeout, otherwise return the captured streams. -/
def send_mcp_request (request : Json) : CommOutcome → List Effect × (Option String × String)
  | .completed so se =>
    ([.launch dockerCmd, .writeStdin (mcpInput request), .waitChild 30], (some so, se))
  | .timedOut =>
    ([.launch dockerCmd, .writeStdin (mcpInput request), .waitChild 30, .kill], (none, "Timeout"))

/-- The tools/list request of test 1. -/
def toolsListRequest : Json :=
  .obj (.cons "jsonrpc" (.str "2.0")
       (.cons "id" (.num 2)
       (.cons "method" (.str "tools/list") .nil)))

/-- The get_cik_by_ticker request of test 2. -/
def cikRequest : Json :=
  .obj (.cons "jsonrpc" (.str "2.0")
       (.cons "id" (.num 3)
       (.cons "method" (.str "tools/call")
       (.cons "params"
         (.obj (.cons "name" (.str "get_cik_by_ticker")
               (.cons "arguments" (.obj (.cons "ticker" (.str "AAPL") .nil)) .nil)))
       .nil))))

/-- The condition of the tools/list loop, with Python evaluation order and
short-circuiting: result membership first, then the subscript, then tools
membership. -/
def toolsCond (response : Json) : Except PyErr Bool :=
  match pyIn "result" response with
  | .error e => .error e
  | .ok false => .ok false
  | .ok true =>
    match pySubscript response "result" with
    | .error e => .error e
    | .ok rv => pyIn "tools" rv

/-- The body of the for loop over tools[:5]: for each tool, subscript its
name and description, slice the description to 60 characters, and emit the
formatted line; the lines printed before a failing iteration are kept. -/
def toolEntryLines : List Json → List String × Option PyErr
  | [] => ([], none)
  | tool :: rest =>
    match pySubscript tool "name" with
    | .error e => ([], some e)
    | .ok nameV =>
      match pySubscript tool "description" with
      | .error e => ([], some e)
      | .ok descV =>
        match pySliceTake 60 descV with
        | .error e => ([], some e)
        | .ok d60 =>
          let r := toolEntryLines rest
          (("  - " ++ pyStr nameV ++ ": " ++ pyStr d60 ++ "...") :: r.1, r.2)

/-- The matched branch of the tools/list loop, in source order: the two
subscripts, len for the Found line, the slice, the per-tool loop, and the
more-tools line when the list is longer than five. -/
def toolsListBody (response : Json) : List String × Option PyErr :=
  match pySubscript response "result" with
  | .error e => ([], some e)
  | .ok rv =>
    match pySubscript rv "tools" with
    | .error e => ([], some e)
    | .ok tools =>
      match pyLen tools with
      | .error e => ([], some e)
      | .ok n =>
        let found := "Found " ++ toString n ++ " tools:"
        match pySliceTake 5 tools with
        | .error e => ([found], some e)
        | .ok sliced =>
          match pyIterate sliced with
          | .error e => ([found], some e)
          | .ok elems =>
            let r := toolEntryLines elems
            match r.2 with
            | some e => (found :: r.1, some e)
            | none =>
              (found :: r.1
                ++ (if 5 < n then ["  ... and " ++ toString (n - 5) ++ " more tools"] else []),
               none)

/-- One iteration of the tools/list loop: json.loads under the decode-error
except clause, the condition, and on a match the body followed by break. -/
def toolsStep (line : String) : LineStep :=
  match json_loads line with
  | none => .skip true
  | some response =>
    match toolsCond response with
    | .error e => .halt [] none (some e)
    | .ok false => .skip true
    | .ok true =>
      let b := toolsListBody response
      .halt b.1 (some response) b.2

def toolsScan : List String → ScanResult :=
  scanLoop toolsStep

/-- First condition of the CIK loop: result membership, then content
membership in the subscripted value. -/
def cikCond1 (response : Json) : Except PyErr Bool :=
  match pyIn "result" response with
  | .error e => .error e
  | .ok false => .ok false
  | .ok true =>
    match pySubscript response "result" with
    | .error e => .error e
    | .ok rv => pyIn "content" rv

/-- Second condition of the CIK loop: result membership, then the id
subscript (KeyError when the key is absent) compared against 3. -/
def cikCond2 (response : Json) : Except PyErr Bool :=
  match pyIn "result" response with
  | .error e => .error e
  | .ok false => .ok false
  | .ok true =>
    match pySubscript response "id" with
    | .error e => .error e
    | .ok idv => .ok (pyEqIntV idv 3)

/-- One iteration of the CIK loop of test-mcp.py.  In each matched branch
the header line is printed before the dumped value is computed, so a failing
subscript still leaves the header in the trace. -/
def cikStep (line : String) : LineStep :=
  match json_loads line with
  | none => .skip true
  | some response =>
    match cikCond1 response with
    | .error e => .halt [] none (some e)
    | .ok true =>
      match pySubscript response "result" with
      | .error e => .halt ["Apple (AAPL) CIK lookup result:"] (some response) (some e)
      | .ok rv =>
        match pySubscript rv "content" with
        | .error e => .halt ["Apple (AAPL) CIK lookup result:"] (some response) (some e)
        | .ok content =>
          .halt ["Apple (AAPL) CIK lookup result:", dumpsInd 0 content] (some response) none
    | .ok false =>
      match cikCond2 response with
      | .error e => .halt [] none (some e)
      | .ok true =>
        match pySubscript response "result" with
        | .error e => .halt ["Apple (AAPL) CIK lookup result:"] (some response) (some e)
        | .ok rv => .halt ["Apple (AAPL) CIK lookup result:", dumpsInd 0 rv] (some response) none
      | .ok false => .skip true

def cikScan : List String → ScanResult :=
  scanLoop cikStep

/-- A loop that never ran: the guard if stdout was falsy. -/
def scanIdle : ScanResult := ⟨[], [], none, none⟩

/-- The guard and line split around each scanning loop in the main block:
scan only when stdout is neither None nor empty. -/
def scanOf (stdoutOpt : Option String) (scanF : List String → ScanResult) : ScanResult :=
  match stdoutOpt with
  | some so => if so != "" then scanF (getLines so) else scanIdle
  | none => scanIdle

/-- The main block of test-mcp.py: the tools/list test then the CIK test,
each a header print, one send_mcp_request call, and a guarded scan.  An
uncaught exception in the first scan ends the program before the second
test. -/
def testMcpMain (o1 o2 : CommOutcome) : List Effect × Option PyErr :=
  let r1 := send_mcp_request toolsListRequest o1
  let s1 := scanOf r1.2.1 toolsScan
  let part1 := Effect.printOut "=== Testing MCP Tools List ===" :: r1.1
               ++ s1.prints.map Effect.printOut
  match s1.err with
  | some e => (part1, some e)
  | none =>
    let r2 := send_mcp_request cikRequest o2
    let s2 := scanOf r2.2.1 cikScan
    (part1 ++ Effect.printOut "\n=== Testing Company CIK Lookup ===" :: r2.1
       ++ s2.prints.map Effect.printOut,
     s2.err)

/-! ## Derived definitions used by the statements -/

/-- The externally observable part of a scan: what it printed, what matched,
and the uncaught exception; the attempted lines are instrumentation. -/
def scanObs (r : ScanResult) : List String × Option Json × Option PyErr :=
  (r.prints, r.matched, r.err)

/-- Following the amended reading of the matching rule of
simple-mcp-test.py: a line qualifies when it starts with an opening curly
bracket and parses as a JSON object whose id member equals 2. -/
def id2Match (line : String) : Option Json :=
  match json_loads line with
  | some r =>
    match r with
    | .obj kvs =>
      if pyStartsW line "\x7b" && pyOptEqInt (kvs.find "id") 2 then some r else none
    | _ => none
  | none => none

/-- The first qualifying line of the output, in line order. -/
def specFirstId2 : List String → Option Json
  | [] => none
  | l :: rest =>
    match id2Match l with
    | some r => some r
    | none => specFirstId2 rest

/-- Number of container launches in a trace. -/
def launchCount (es : List Effect) : Nat :=
  (es.filter fun e => match e with | .launch _ => true | _ => false).length

/-- Durable effects: only the unused writeFile constructor qualifies. -/
def durable : Effect → Bool
  | .writeFile _ _ => true
  | _ => false

/-- A tool entry as the tools/list loop expects it: an object with a name
and a description string. -/
def mkTool (nd : String × String) : Json :=
  .obj (.cons "name" (.str nd.1) (.cons "description" (.str nd.2) .nil))

def mkTools : List (String × String) → JsonList
  | [] => .nil
  | nd :: tl => .cons (mkTool nd) (mkTools tl)

/-- Seven tools, the first with a description longer than sixty characters,
used to instantiate the tools/list theorem. -/
def toolPairs : List (String × String) :=
  [("tool_one", "a first description that is comfortably longer than the sixty character cut applied by the script"),
   ("tool_two", "second"), ("tool_three", "third"), ("tool_four", "fourth"),
   ("tool_five", "fifth"), ("tool_six", "sixth"), ("tool_seven", "seventh")]

def toolsResponse : Json :=
  .obj (.cons "result" (.obj (.cons "tools" (.arr (mkTools toolPairs)) .nil)) .nil)

def toolsLine : String := jsonDumps toolsResponse

/-! ## Generic lemmas about the scanning loops -/

theorem scanObs_cons_skip (step : String → LineStep) (x : String) (l : List String)
    (h : (step x).isSkip = true) :
    scanObs (scanLoop step (x :: l)) = scanObs (scanLoop step l) := by
  cases hx : step x with
  | skip a => cases a <;> simp [scanLoop, hx, scanObs]
  | halt ps m e => rw [hx] at h; simp [LineStep.isSkip] at h

theorem scanLoop_skip_middle (step : String → LineStep) (bad : String)
    (h : (step bad).isSkip = true) (pre post : List String) :
    scanObs (scanLoop step (pre ++ bad :: post)) = scanObs (scanLoop step (pre ++ post)) := by
  induction pre with
  | nil => simpa using scanObs_cons_skip step bad post h
  | cons x xs ih =>
    cases hx : step x with
    | skip a =>
      have hx' : (step x).isSkip = true := by rw [hx]; rfl
      rw [List.cons_append, List.cons_append,
        scanObs_cons_skip step x _ hx', scanObs_cons_skip step x _ hx']
      exact ih
    | halt ps m e =>
      simp [scanLoop, hx, scanObs]

theorem scanLoop_attempted_mem (step : String → LineStep) :
    ∀ ls x, x ∈ (scanLoop step ls).attempted → (step x).attemptsLine = true := by
  intro ls
  induction ls with
  | nil => intro x hx; simp [scanLoop] at hx
  | cons l rest ih =>
    intro x hx
    cases hl : step l with
    | skip a =>
      cases a with
      | false =>
        rw [show scanLoop step (l :: rest) =
          ⟨(scanLoop step rest).prints, (scanLoop step rest).attempted,
           (scanLoop step rest).matched, (scanLoop step rest).err⟩ from by
            simp [scanLoop, hl]] at hx
        exact ih x hx
      | true =>
        rw [show scanLoop step (l :: rest) =
          ⟨(scanLoop step rest).prints, l :: (scanLoop step rest).attempted,
           (scanLoop step rest).matched, (scanLoop step rest).err⟩ from by
            simp [scanLoop, hl]] at hx
        rcases List.mem_cons.1 hx with rfl | hx'
        · rw [hl]; rfl
        · exact ih x hx'
    | halt ps m e =>
      rw [show scanLoop step (l :: rest) = ⟨ps, [l], m, e⟩ from by simp [scanLoop, hl]] at hx
      rcases List.mem_singleton.1 hx with rfl
      rw [hl]; rfl

theorem scanLoop_prepend_skips (step : String → LineStep) (pre rest : List String)
    (h : ∀ x ∈ pre, step x = .skip true) :
    scanLoop step (pre ++ rest) =
      ⟨(scanLoop step rest).prints, pre ++ (scanLoop step rest).attempted,
       (scanLoop step rest).matched, (scanLoop step rest).err⟩ := by
  induction pre with
  | nil => simp
  | cons x xs ih =>
    have hx := h x (List.mem_cons_self x xs)
    have ih' := ih fun y hy => h y (List.mem_cons_of_mem x hy)
    simp [scanLoop, hx, ih']

theorem scanLoop_matched_exists (step : String → LineStep) :
    ∀ ls r, (scanLoop step ls).matched = some r →
      ∃ l, l ∈ ls ∧ ∃ ps e, step l = .halt ps (some r) e := by
  intro ls
  induction ls with
  | nil => intro r hr; simp [scanLoop] at hr
  | cons l rest ih =>
    intro r hr
    cases hl : step l with
    | skip a =>
      have hr' : (scanLoop step rest).matched = some r := by
        cases a <;> simpa [scanLoop, hl] using hr
      obtain ⟨l', hmem, hhalt⟩ := ih r hr'
      exact ⟨l', List.mem_cons_of_mem l hmem, hhalt⟩
    | halt ps m e =>
      have hm : m = some r := by simpa [scanLoop, hl] using hr
      exact ⟨l, List.mem_cons_self l rest, ps, e, by rw [hl, hm]⟩

theorem scanLoop_head_attempted (step : String → LineStep) (l : String) (post : List String)
    (h : (step l).attemptsLine = true) : l ∈ (scanLoop step (l :: post)).attempted := by
  cases hl : step l with
  | skip a =>
    cases a with
    | false => rw [hl] at h; simp [LineStep.attemptsLine] at h
    | true =>
      rw [show scanLoop step (l :: post) =
        ⟨(scanLoop step post).prints, l :: (scanLoop step post).attempted,
         (scanLoop step post).matched, (scanLoop step post).err⟩ from by
          simp [scanLoop, hl]]
      exact List.mem_cons_self _ _
  | halt ps m e =>
    rw [show scanLoop step (l :: post) = ⟨ps, [l], m, e⟩ from by simp [scanLoop, hl]]
    exact List.mem_singleton.2 rfl

theorem scanLoop_mem_attempted_append (step : String → LineStep) (pre rest : List String)
    (l : String) (h : ∀ x ∈ pre, (step x).isSkip = true)
    (hl : l ∈ (scanLoop step rest).attempted) :
    l ∈ (scanLoop step (pre ++ rest)).attempted := by
  induction pre with
  | nil => simpa using hl
  | cons x xs ih =>
    have hx := h x (List.mem_cons_self x xs)
    have ih' := ih fun y hy => h y (List.mem_cons_of_mem x hy)
    cases hsx : step x with
    | skip a =>
      cases a <;> rw [List.cons_append] <;>
        simp only [scanLoop, hsx] <;> first
          | exact ih'
          | exact List.mem_cons_of_mem x ih'
    | halt ps m e => rw [hsx] at hx; simp [LineStep.isSkip] at hx

theorem scanLoop_attempted_prepend_skipsAny (step : String → LineStep) (pre rest : List String)
    (h : ∀ x ∈ pre, (step x).isSkip = true) :
    (scanLoop step (pre ++ rest)).attempted =
      pre.filter (fun x => (step x).attemptsLine) ++ (scanLoop step rest).attempted := by
  induction pre with
  | nil => simp
  | cons x xs ih =>
    have hx := h x (List.mem_cons_self x xs)
    have ih' := ih fun y hy => h y (List.mem_cons_of_mem x hy)
    cases hsx : step x with
    | skip a =>
      cases a with
      | true => simp [scanLoop, hsx, List.filter_cons, ih', LineStep.attemptsLine]
      | false => simp [scanLoop, hsx, List.filter_cons, ih', LineStep.attemptsLine]
    | halt ps m e => rw [hsx] at hx; simp [LineStep.isSkip] at hx

theorem scanLoop_halt_attempted (step : String → LineStep) (l : String) (post : List String)
    (h : (step l).isSkip = false) :
    (scanLoop step (l :: post)).attempted = [l] := by
  cases hl : step l with
  | skip a => rw [hl] at h; simp [LineStep.isSkip] at h
  | halt ps m e => simp [scanLoop, hl]

/-! ## Lemmas about the per-line step functions -/

theorem pyStartsW_brace (l : String) (h : pyStartsW l "\x7b" = true) :
    ∃ cs, l.data = '\x7b' :: cs := by
  unfold pyStartsW at h
  rw [show ("\x7b" : String).data = ['\x7b'] from rfl] at h
  cases hcs : l.data with
  | nil => rw [hcs] at h; simp [listStartsW] at h
  | cons c cs =>
    rw [hcs] at h
    simp only [listStartsW, Bool.and_eq_true, decide_eq_true_eq] at h
    exact ⟨cs, by rw [h.1]⟩

theorem parseValue_brace_shape (m : Nat) (cs : List Char) (v : Json) (rest : List Char)
    (h : parseValue (m + 1) ('\x7b' :: cs) = some (v, rest)) : ∃ kvs, v = Json.obj kvs := by
  have hv : parseValue (m + 1) ('\x7b' :: cs) =
      (match skipWs cs with
       | '\x7d' :: r2 => some (Json.obj .nil, r2)
       | r2 =>
         match parseMembers m r2 with
         | some (kvs, r3) => some (Json.obj kvs, r3)
         | none => none) := rfl
  rw [hv] at h
  split at h
  · exact ⟨.nil, by injection h with h'; injection h' with h1 _; exact h1.symm⟩
  · split at h
    · rename_i kvs r3 _
      exact ⟨kvs, by injection h with h'; injection h' with h1 _; exact h1.symm⟩
    · exact absurd h (by simp)

theorem loads_brace_obj (s : String) (r : Json) (h : json_loads s = some r)
    (hb : pyStartsW s "\x7b" = true) : ∃ kvs, r = Json.obj kvs := by
  obtain ⟨cs, hcs⟩ := pyStartsW_brace s hb
  unfold json_loads at h
  rw [hcs] at h
  rw [show skipWs ('\x7b' :: cs) = '\x7b' :: cs from by simp [skipWs, isWsChar]] at h
  rw [show 2 * s.length + 4 = 2 * s.length + 3 + 1 from rfl] at h
  cases hpv : parseValue (2 * s.length + 3 + 1) ('\x7b' :: cs) with
  | none => rw [hpv] at h; simp at h
  | some vr =>
    obtain ⟨v, rest⟩ := vr
    rw [hpv] at h
    have hv : v = r := by
      by_cases hre : (skipWs rest).isEmpty = true
      · simpa [hre] using h
      · simp [hre] at h
    obtain ⟨kvs, hkvs⟩ := parseValue_brace_shape _ _ _ _ hpv
    exact ⟨kvs, by rw [← hv, hkvs]⟩

theorem simpleCand_of_brace (l : String) (h : pyStartsW l "\x7b" = true) :
    simpleCand l = pyStartsW l "\x7b" := by
  obtain ⟨cs, hcs⟩ := pyStartsW_brace l h
  unfold simpleCand
  rw [hcs, h]
  simp [isWsChar]

theorem simpleStep_attempts (l : String) : (simpleStep l).attemptsLine = simpleCand l := by
  unfold simpleStep
  repeat' split
  all_goals simp_all [LineStep.attemptsLine]

theorem toolsStep_attempts (l : String) : (toolsStep l).attemptsLine = true := by
  unfold toolsStep
  repeat' split
  all_goals rfl

theorem cikStep_attempts (l : String) : (cikStep l).attemptsLine = true := by
  unfold cikStep
  repeat' split
  all_goals rfl

theorem simpleStep_skip_of_loads_none (l : String) (h : json_loads l = none) :
    (simpleStep l).isSkip = true := by
  unfold simpleStep
  cases hc : simpleCand l <;> simp [h, LineStep.isSkip]

theorem toolsStep_skip_of_loads_none (l : String) (h : json_loads l = none) :
    toolsStep l = .skip true := by
  unfold toolsStep; rw [h]

theorem cikStep_skip_of_loads_none (l : String) (h : json_loads l = none) :
    cikStep l = .skip true := by
  unfold cikStep; rw [h]

theorem simpleStep_halt_matched (l : String) (ps : List String) (r : Json) (e : Option PyErr)
    (h : simpleStep l = .halt ps (some r) e) : json_loads l = some r := by
  unfold simpleStep at h
  split at h
  · split at h
    · exact absurd h (by simp)
    · rename_i response hj
      split at h
      · injection h with _ h2 _
        exact absurd h2 (by simp)
      · split at h
        · injection h with _ h2 _
          rw [hj]; exact h2
        · exact absurd h (by simp)
  · exact absurd h (by simp)

theorem toolsStep_halt_matched (l : String) (ps : List String) (r : Json) (e : Option PyErr)
    (h : toolsStep l = .halt ps (some r) e) : json_loads l = some r := by
  unfold toolsStep at h
  split at h
  · exact absurd h (by simp)
  · rename_i response hj
    split at h
    · injection h with _ h2 _
      exact absurd h2 (by simp)
    · exact absurd h (by simp)
    · injection h with _ h2 _
      rw [hj]; exact h2

theorem cikStep_halt_matched (l : String) (ps : List String) (r : Json) (e : Option PyErr)
    (h : cikStep l = .halt ps (some r) e) : json_loads l = some r := by
  unfold cikStep at h
  split at h
  · exact absurd h (by simp)
  · rename_i response hj
    split at h
    · injection h with _ h2 _
      exact absurd h2 (by simp)
    · split at h
      · injection h with _ h2 _
        rw [hj]; exact h2
      · split at h
        · injection h with _ h2 _
          rw [hj]; exact h2
        · injection h with _ h2 _
          rw [hj]; exact h2
    · split at h
      · injection h with _ h2 _
        exact absurd h2 (by simp)
      · split at h
        · injection h with _ h2 _
          rw [hj]; exact h2
        · injection h with _ h2 _
          rw [hj]; exact h2
      · exact absurd h (by simp)

theorem simpleStep_cases (l : String) :
    (id2Match l = none ∧ (simpleStep l).isSkip = true)
  ∨ (∃ r, id2Match l = some r
      ∧ simpleStep l = .halt ["SUCCESS! Apple\x27s CIK data:", dumpsInd 0 r] (some r) none) := by
  cases hb : pyStartsW l "\x7b" with
  | false =>
    left
    constructor
    · unfold id2Match
      cases hj : json_loads l with
      | none => rfl
      | some r =>
        cases r <;> simp [hb]
    · have hc : simpleCand l = false := by
        unfold simpleCand
        rw [hb]
        simp
      simp [simpleStep, hc, LineStep.isSkip]
  | true =>
    have hc : simpleCand l = true := by rw [simpleCand_of_brace l hb, hb]
    cases hj : json_loads l with
    | none =>
      left
      refine ⟨by simp [id2Match, hj], ?_⟩
      simp [simpleStep, hc, hj, LineStep.isSkip]
    | some resp =>
      obtain ⟨kvs, hkvs⟩ := loads_brace_obj l resp hj hb
      subst hkvs
      have hget : pyDictGet (Json.obj kvs) "id" = .ok (kvs.find "id") := rfl
      cases hid : pyOptEqInt (kvs.find "id") 2 with
      | false =>
        left
        refine ⟨by simp [id2Match, hj, hb, hid], ?_⟩
        simp [simpleStep, hc, hj, hget, hid, LineStep.isSkip]
      | true =>
        right
        refine ⟨Json.obj kvs, by simp [id2Match, hj, hb, hid], ?_⟩
        simp [simpleStep, hc, hj, hget, hid]

/-! ## Lemmas about the tools/list body -/

theorem subscript_ok_pyIn (v : Json) (k : String) (r : Json)
    (h : pySubscript v k = .ok r) : pyIn k v = .ok true := by
  cases v <;> simp [pySubscript] at h
  rename_i kvs
  cases hf : kvs.find k with
  | none => rw [hf] at h; simp at h
  | some rr => simp [pyIn, JsonObj.hasKey, hf]

theorem toolsCond_of (response rv : Json)
    (hres : pySubscript response "result" = .ok rv)
    (h2 : pyIn "tools" rv = .ok true) : toolsCond response = .ok true := by
  unfold toolsCond
  rw [subscript_ok_pyIn _ _ _ hres, hres]
  exact h2

theorem mkTools_length (nds : List (String × String)) :
    (mkTools nds).length = nds.length := by
  induction nds with
  | nil => rfl
  | cons nd tl ih => simp [mkTools, JsonList.length, ih]

theorem mkTools_take (n : Nat) (nds : List (String × String)) :
    JsonList.take n (mkTools nds) = mkTools (nds.take n) := by
  induction nds generalizing n with
  | nil => cases n <;> rfl
  | cons nd tl ih =>
    cases n with
    | zero => rfl
    | succ m => simp [mkTools, JsonList.take, ih]

theorem mkTools_toList (nds : List (String × String)) :
    (mkTools nds).toList = nds.map mkTool := by
  induction nds with
  | nil => rfl
  | cons nd tl ih => simp [mkTools, JsonList.toList, ih]

theorem mkTool_name (nd : String × String) :
    pySubscript (mkTool nd) "name" = .ok (.str nd.1) := rfl

theorem mkTool_desc (nd : String × String) :
    pySubscript (mkTool nd) "description" = .ok (.str nd.2) := rfl

theorem toolEntryLines_mkTool (nds : List (String × String)) :
    toolEntryLines (nds.map mkTool) =
      (nds.map fun nd => "  - " ++ nd.1 ++ ": " ++ strTake 60 nd.2 ++ "...", none) := by
  induction nds with
  | nil => rfl
  | cons nd tl ih =>
    simp only [List.map_cons, toolEntryLines, mkTool_name, mkTool_desc, pySliceTake, ih, pyStr]

theorem toolsListBody_spec (response rv : Json) (nds : List (String × String))
    (hres : pySubscript response "result" = .ok rv)
    (htools : pySubscript rv "tools" = .ok (.arr (mkTools nds))) :
    toolsListBody response =
      (("Found " ++ toString nds.length ++ " tools:")
          :: (nds.take 5).map (fun nd => "  - " ++ nd.1 ++ ": " ++ strTake 60 nd.2 ++ "...")
          ++ (if 5 < nds.length then ["  ... and " ++ toString (nds.length - 5) ++ " more tools"]
              else []),
       none) := by
  simp only [toolsListBody, hres, htools, pyLen, mkTools_length, pySliceTake, mkTools_take,
    pyIterate, mkTools_toList, toolEntryLines_mkTool]

/-! ## Lemmas about traces -/

theorem launchCount_append (a b : List Effect) :
    launchCount (a ++ b) = launchCount a + launchCount b := by
  simp [launchCount, List.filter_append]

theorem launchCount_prints (l : List String) : launchCount (l.map Effect.printOut) = 0 := by
  induction l with
  | nil => rfl
  | cons x xs ih => simp [launchCount, List.filter, ih]

theorem prints_not_durable (l : List String) :
    ((l.map Effect.printOut).all fun e => !durable e) = true := by
  induction l with
  | nil => rfl
  | cons x xs ih => simp [durable, ih]

theorem sendEffects_not_durable (req : Json) (o : CommOutcome) :
    (((send_mcp_request req o).1).all fun e => !durable e) = true := by
  cases o <;> rfl

/-! ## Claim theorems -/

set_option maxRecDepth 8192 in
/-- Claim C1: each script writes exactly three newline-terminated JSON
messages to the subprocess input stream, in order an initialize request, an
initialized notification, and one payload request; the first two are fixed
constants carrying protocolVersion 2024-11-05, so the bytes written are a
deterministic function of the payload request alone. -/
theorem three_messages_deterministic :
    simpleInput =
      "\x7b\x22jsonrpc\x22: \x222.0\x22, \x22id\x22: 1, \x22method\x22: \x22initialize\x22, \x22params\x22: \x7b\x22protocolVersion\x22: \x222024-11-05\x22, \x22capabilities\x22: \x7b\x7d, \x22clientInfo\x22: \x7b\x22name\x22: \x22test\x22, \x22version\x22: \x221.0.0\x22\x7d\x7d\x7d"
        ++ "\n" ++ "\x7b\x22jsonrpc\x22: \x222.0\x22, \x22method\x22: \x22notifications/initialized\x22\x7d"
        ++ "\n" ++ "\x7b\x22jsonrpc\x22: \x222.0\x22, \x22id\x22: 2, \x22method\x22: \x22tools/call\x22, \x22params\x22: \x7b\x22name\x22: \x22get_cik_by_ticker\x22, \x22arguments\x22: \x7b\x22ticker\x22: \x22AAPL\x22\x7d\x7d\x7d"
        ++ "\n"
  ∧ (simpleRequests.all fun x => (json_loads x).isSome) = true
  ∧ jsonDumps initRequest =
      "\x7b\x22jsonrpc\x22: \x222.0\x22, \x22id\x22: 1, \x22method\x22: \x22initialize\x22, \x22params\x22: \x7b\x22protocolVersion\x22: \x222024-11-05\x22, \x22capabilities\x22: \x7b\x7d, \x22clientInfo\x22: \x7b\x22name\x22: \x22test-client\x22, \x22version\x22: \x221.0.0\x22\x7d\x7d\x7d"
  ∧ jsonDumps initNote = "\x7b\x22jsonrpc\x22: \x222.0\x22, \x22method\x22: \x22notifications/initialized\x22\x7d"
  ∧ (∀ request, mcpInput request =
      jsonDumps initRequest ++ "\n" ++ jsonDumps initNote ++ "\n" ++ jsonDumps request ++ "\n")
  ∧ json_loads (jsonDumps initRequest) = some initRequest
  ∧ json_loads (jsonDumps initNote) = some initNote :=
  ⟨rfl, rfl, rfl, rfl, fun _ => rfl, rfl, rfl⟩

/-- Claim C2: a line that is attempted but fails to parse as JSON is
silently skipped in every one of the three scanning loops: inserting it
anywhere changes neither the prints, nor the match, nor the uncaught
exception of the scan. -/
theorem malformed_line_skipped :
    ∀ bad, json_loads bad = none → ∀ pre post,
      scanObs (simpleScan (pre ++ bad :: post)) = scanObs (simpleScan (pre ++ post))
    ∧ scanObs (toolsScan (pre ++ bad :: post)) = scanObs (toolsScan (pre ++ post))
    ∧ scanObs (cikScan (pre ++ bad :: post)) = scanObs (cikScan (pre ++ post)) := by
  intro bad hbad pre post
  refine ⟨?_, ?_, ?_⟩
  · exact scanLoop_skip_middle simpleStep bad (simpleStep_skip_of_loads_none bad hbad) pre post
  · exact scanLoop_skip_middle toolsStep bad
      (by rw [toolsStep_skip_of_loads_none bad hbad]; rfl) pre post
  · exact scanLoop_skip_middle cikStep bad
      (by rw [cikStep_skip_of_loads_none bad hbad]; rfl) pre post

/-- Witness for the malformed-line theorem at a concrete undecodable line
followed by a well-formed matching line. -/
theorem malformed_line_skipped_witness :
    json_loads "\x7bnot json" = none
  ∧ (scanObs (simpleScan ([] ++ "\x7bnot json" :: ["\x7b\x22id\x22: 2\x7d"]))
      = scanObs (simpleScan ([] ++ ["\x7b\x22id\x22: 2\x7d"]))
    ∧ scanObs (toolsScan ([] ++ "\x7bnot json" :: ["\x7b\x22id\x22: 2\x7d"]))
      = scanObs (toolsScan ([] ++ ["\x7b\x22id\x22: 2\x7d"]))
    ∧ scanObs (cikScan ([] ++ "\x7bnot json" :: ["\x7b\x22id\x22: 2\x7d"]))
      = scanObs (cikScan ([] ++ ["\x7b\x22id\x22: 2\x7d"]))) :=
  ⟨rfl, malformed_line_skipped "\x7bnot json" rfl [] ["\x7b\x22id\x22: 2\x7d"]⟩

/-- Claim C5: every invocation carries a wall-clock timeout, 15 seconds in
simple-mcp-test.py and 30 seconds in test-mcp.py; on expiry send_mcp_request
kills the process and returns None with the string Timeout, test_apple_cik
prints that the request timed out, and no trace ever launches the container
more than once per call. -/
theorem timeout_single_run_and_kill :
    (∀ request, send_mcp_request request .timedOut =
      ([.launch dockerCmd, .writeStdin (mcpInput request), .waitChild 30, .kill],
       (none, "Timeout")))
  ∧ test_apple_cik .timedOut =
      [.launch dockerCmd, .writeStdin simpleInput, .waitChild 15, .kill,
       .printOut "Request timed out"]
  ∧ (∀ request o, launchCount (send_mcp_request request o).1 = 1)
  ∧ (∀ o, launchCount (test_apple_cik o) = 1) := by
  refine ⟨fun request => rfl, rfl, fun request o => ?_, fun o => ?_⟩
  · cases o <;> rfl
  · cases o with
    | timedOut => rfl
    | completed so se =>
      simp only [test_apple_cik]
      rw [launchCount_append, launchCount_append, launchCount_prints]
      rw [show launchCount [Effect.launch dockerCmd, .writeStdin simpleInput, .waitChild 15,
        .printOut "=== RAW OUTPUT ===", .printOut ("STDOUT: " ++ so),
        .printOut ("STDERR: " ++ se), .printOut "\n=== PARSED RESPONSES ==="] = 1 from rfl]
      cases herr : (simpleScan (getLines so)).err <;> simp [launchCount]

/-- Claim C7: neither script creates durable state: every effect of every
run is a launch, a write to the subprocess input, a wait, a kill, or a print
to standard output, and in particular no trace contains a file write. -/
theorem no_durable_effects :
    (∀ o, ((test_apple_cik o).all fun e => !durable e) = true)
  ∧ (∀ o1 o2, (((testMcpMain o1 o2).1).all fun e => !durable e) = true) := by
  constructor
  · intro o
    cases o with
    | timedOut => rfl
    | completed so se =>
      cases herr : (simpleScan (getLines so)).err <;>
        simp [test_apple_cik, List.all_append, prints_not_durable, durable, herr]
  · intro o1 o2
    simp only [testMcpMain]
    cases herr : (scanOf (send_mcp_request toolsListRequest o1).2.1 toolsScan).err <;>
      cases o1 <;> cases o2 <;>
        simp [herr, List.all_append, prints_not_durable, durable, send_mcp_request]

/-- Claim C10: when send_mcp_request returns a stdout that is None (timeout)
or the empty string, the main block of test-mcp.py skips that test's result
processing: no scan prints, no exception, and the next test runs exactly as
it would otherwise. -/
theorem falsy_stdout_skips_processing :
    ∀ se o2,
      testMcpMain .timedOut o2 =
        (Effect.printOut "=== Testing MCP Tools List ==="
            :: (send_mcp_request toolsListRequest .timedOut).1
          ++ Effect.printOut "\n=== Testing Company CIK Lookup ==="
            :: (send_mcp_request cikRequest o2).1
          ++ ((scanOf (send_mcp_request cikRequest o2).2.1 cikScan).prints.map Effect.printOut),
         (scanOf (send_mcp_request cikRequest o2).2.1 cikScan).err)
    ∧ testMcpMain (.completed "" se) o2 =
        (Effect.printOut "=== Testing MCP Tools List ==="
            :: (send_mcp_request toolsListRequest (.completed "" se)).1
          ++ Effect.printOut "\n=== Testing Company CIK Lookup ==="
            :: (send_mcp_request cikRequest o2).1
          ++ ((scanOf (send_mcp_request cikRequest o2).2.1 cikScan).prints.map Effect.printOut),
         (scanOf (send_mcp_request cikRequest o2).2.1 cikScan).err) := by
  intro se o2
  constructor <;> simp [testMcpMain, scanOf, scanIdle, send_mcp_request]

/-- Claim C6: a response is matched only if it parses as JSON from a single
line in isolation; in all three loops a match yields a line of the scanned
output whose own parse is exactly the matched response, so a document spread
over several lines is never reassembled. -/
theorem matched_requires_single_line_parse :
    ∀ lines r,
      ((simpleScan lines).matched = some r → ∃ l, l ∈ lines ∧ json_loads l = some r)
    ∧ ((toolsScan lines).matched = some r → ∃ l, l ∈ lines ∧ json_loads l = some r)
    ∧ ((cikScan lines).matched = some r → ∃ l, l ∈ lines ∧ json_loads l = some r) := by
  intro lines r
  refine ⟨fun h => ?_, fun h => ?_, fun h => ?_⟩
  · obtain ⟨l, hmem, ps, e, hl⟩ := scanLoop_matched_exists simpleStep lines r h
    exact ⟨l, hmem, simpleStep_halt_matched l ps r e hl⟩
  · obtain ⟨l, hmem, ps, e, hl⟩ := scanLoop_matched_exists toolsStep lines r h
    exact ⟨l, hmem, toolsStep_halt_matched l ps r e hl⟩
  · obtain ⟨l, hmem, ps, e, hl⟩ := scanLoop_matched_exists cikStep lines r h
    exact ⟨l, hmem, cikStep_halt_matched l ps r e hl⟩

/-- Witness for the single-line-parse theorem at a concrete matching scan. -/
theorem matched_requires_single_line_parse_witness :
    ∃ l, l ∈ ["\x7b\x22id\x22: 2\x7d"]
      ∧ json_loads l = some (.obj (.cons "id" (.num 2) .nil)) :=
  (matched_requires_single_line_parse ["\x7b\x22id\x22: 2\x7d"]
    (.obj (.cons "id" (.num 2) .nil))).1 (by rfl)

/-- Claim C4 counterexample: a line of valid JSON with a leading space is
never handed to json.loads by simple-mcp-test.py, and once the tools/list
loop of test-mcp.py breaks, the remaining valid line is not attempted
either; so not every line of the output is attempted. -/
theorem line_excluded_from_parse_attempt :
    (json_loads " \x7b\x22id\x22: 2\x7d").isSome = true
  ∧ (simpleScan [" \x7b\x22id\x22: 2\x7d"]).attempted = []
  ∧ (toolsScan ["\x7b\x22result\x22: \x7b\x22tools\x22: []\x7d\x7d", "\x7b\x22a\x22: 1\x7d"]).attempted
      = ["\x7b\x22result\x22: \x7b\x22tools\x22: []\x7d\x7d"]
  ∧ (json_loads "\x7b\x22a\x22: 1\x7d").isSome = true :=
  ⟨rfl, rfl, rfl, rfl⟩

/-- Claim C4 amended: while no earlier line has ended the loop, the loops of
test-mcp.py hand every line to json.loads, and simple-mcp-test.py hands a
line to json.loads exactly when it is non-blank and starts with an opening
curly bracket; when a line does end the loop (by matching or by raising),
the attempted lines are exactly the earlier attempted lines followed by that
line, so nothing after it is ever attempted; and only qualifying lines are
ever attempted by simple-mcp-test.py. -/
theorem attempted_lines_characterization :
    ∀ l post pre,
      ((∀ x ∈ pre, (toolsStep x).isSkip = true) →
          l ∈ (toolsScan (pre ++ l :: post)).attempted
        ∧ ((toolsStep l).isSkip = false →
            (toolsScan (pre ++ l :: post)).attempted
              = pre.filter (fun x => (toolsStep x).attemptsLine) ++ [l]))
    ∧ ((∀ x ∈ pre, (cikStep x).isSkip = true) →
          l ∈ (cikScan (pre ++ l :: post)).attempted
        ∧ ((cikStep l).isSkip = false →
            (cikScan (pre ++ l :: post)).attempted
              = pre.filter (fun x => (cikStep x).attemptsLine) ++ [l]))
    ∧ ((∀ x ∈ pre, (simpleStep x).isSkip = true) →
          (l ∈ (simpleScan (pre ++ l :: post)).attempted ↔ simpleCand l = true)
        ∧ ((simpleStep l).isSkip = false →
            (simpleScan (pre ++ l :: post)).attempted
              = pre.filter (fun x => (simpleStep x).attemptsLine) ++ [l]))
    ∧ (∀ x, x ∈ (simpleScan (pre ++ l :: post)).attempted → simpleCand x = true) := by
  intro l post pre
  refine ⟨fun hpre => ⟨?_, fun hhalt => ?_⟩, fun hpre => ⟨?_, fun hhalt => ?_⟩,
    fun hpre => ⟨⟨fun hmem => ?_, fun hcand => ?_⟩, fun hhalt => ?_⟩, fun x hx => ?_⟩
  · exact scanLoop_mem_attempted_append toolsStep pre (l :: post) l hpre
      (scanLoop_head_attempted toolsStep l post (toolsStep_attempts l))
  · show (scanLoop toolsStep (pre ++ l :: post)).attempted = _
    rw [scanLoop_attempted_prepend_skipsAny toolsStep pre (l :: post) hpre,
      scanLoop_halt_attempted toolsStep l post hhalt]
  · exact scanLoop_mem_attempted_append cikStep pre (l :: post) l hpre
      (scanLoop_head_attempted cikStep l post (cikStep_attempts l))
  · show (scanLoop cikStep (pre ++ l :: post)).attempted = _
    rw [scanLoop_attempted_prepend_skipsAny cikStep pre (l :: post) hpre,
      scanLoop_halt_attempted cikStep l post hhalt]
  · have h := scanLoop_attempted_mem simpleStep (pre ++ l :: post) l hmem
    rw [simpleStep_attempts] at h
    exact h
  · exact scanLoop_mem_attempted_append simpleStep pre (l :: post) l hpre
      (scanLoop_head_attempted simpleStep l post (by rw [simpleStep_attempts, hcand]))
  · show (scanLoop simpleStep (pre ++ l :: post)).attempted = _
    rw [scanLoop_attempted_prepend_skipsAny simpleStep pre (l :: post) hpre,
      scanLoop_halt_attempted simpleStep l post hhalt]
  · have h := scanLoop_attempted_mem simpleStep (pre ++ l :: post) x hx
    rw [simpleStep_attempts] at h
    exact h

/-- Witness for the attempted-lines theorem: the prefix line decodes to a
non-matching object (so it is skipped but not undecodable), the middle line
ends the tools/list loop by matching and the CIK loop by raising, and the
decodable line after it is never attempted. -/
theorem attempted_lines_characterization_witness :
    json_loads "\x7b\x22id\x22: 1\x7d" = some (Json.obj (.cons "id" (.num 1) .nil))
  ∧ "\x7b\x22result\x22: \x7b\x22tools\x22: []\x7d\x7d"
      ∈ (toolsScan (["\x7b\x22id\x22: 1\x7d"]
          ++ "\x7b\x22result\x22: \x7b\x22tools\x22: []\x7d\x7d"
            :: ["\x7b\x22id\x22: 2\x7d"])).attempted
  ∧ (toolsScan (["\x7b\x22id\x22: 1\x7d"]
        ++ "\x7b\x22result\x22: \x7b\x22tools\x22: []\x7d\x7d"
          :: ["\x7b\x22id\x22: 2\x7d"])).attempted
      = ["\x7b\x22id\x22: 1\x7d", "\x7b\x22result\x22: \x7b\x22tools\x22: []\x7d\x7d"]
  ∧ (cikScan (["\x7b\x22id\x22: 1\x7d"]
        ++ "\x7b\x22result\x22: \x7b\x22tools\x22: []\x7d\x7d"
          :: ["\x7b\x22id\x22: 2\x7d"])).attempted
      = ["\x7b\x22id\x22: 1\x7d", "\x7b\x22result\x22: \x7b\x22tools\x22: []\x7d\x7d"]
  ∧ ("\x7b\x22result\x22: \x7b\x22tools\x22: []\x7d\x7d"
      ∈ (simpleScan (["\x7b\x22id\x22: 1\x7d"]
          ++ "\x7b\x22result\x22: \x7b\x22tools\x22: []\x7d\x7d"
            :: ["\x7b\x22id\x22: 2\x7d"])).attempted
        ↔ simpleCand "\x7b\x22result\x22: \x7b\x22tools\x22: []\x7d\x7d" = true) := by
  have h := attempted_lines_characterization "\x7b\x22result\x22: \x7b\x22tools\x22: []\x7d\x7d"
    ["\x7b\x22id\x22: 2\x7d"] ["\x7b\x22id\x22: 1\x7d"]
  have hpt : ∀ x ∈ ["\x7b\x22id\x22: 1\x7d"], (toolsStep x).isSkip = true := by
    intro x hx; rw [List.mem_singleton] at hx; subst hx; rfl
  have hpc : ∀ x ∈ ["\x7b\x22id\x22: 1\x7d"], (cikStep x).isSkip = true := by
    intro x hx; rw [List.mem_singleton] at hx; subst hx; rfl
  have hps : ∀ x ∈ ["\x7b\x22id\x22: 1\x7d"], (simpleStep x).isSkip = true := by
    intro x hx; rw [List.mem_singleton] at hx; subst hx; rfl
  refine ⟨rfl, (h.1 hpt).1, ?_, ?_, (h.2.2.1 hps).1⟩
  · rw [(h.1 hpt).2 rfl]; rfl
  · rw [(h.2.1 hpc).2 rfl]; rfl

/-- Claim C3 counterexample: a line of valid JSON whose object has id 2 but
which begins with a space is not the line simple-mcp-test.py prints: with
such a line first, the scan matches a later line instead, and with that line
alone it prints nothing at all. -/
theorem first_json_object_line_not_printed :
    json_loads " \x7b\x22id\x22: 2\x7d" = some (.obj (.cons "id" (.num 2) .nil))
  ∧ pyOptEqInt (JsonObj.find (.cons "id" (.num 2) .nil) "id") 2 = true
  ∧ (simpleScan [" \x7b\x22id\x22: 2\x7d", "\x7b\x22id\x22: 2, \x22note\x22: 1\x7d"]).matched
      = some (.obj (.cons "id" (.num 2) (.cons "note" (.num 1) .nil)))
  ∧ (simpleScan [" \x7b\x22id\x22: 2\x7d"]).matched = none
  ∧ (simpleScan [" \x7b\x22id\x22: 2\x7d"]).prints = [] :=
  ⟨rfl, rfl, rfl, rfl, rfl⟩

/-- Claim C3 amended: simple-mcp-test.py prints, as matched result, the
first line that starts with an opening curly bracket and parses as a JSON
object whose id equals 2, then stops; it never raises, and prints nothing
when no such line exists. -/
theorem simple_scan_first_brace_match :
    ∀ lines,
      (simpleScan lines).matched = specFirstId2 lines
    ∧ (simpleScan lines).err = none
    ∧ (simpleScan lines).prints =
        (match specFirstId2 lines with
         | some r => ["SUCCESS! Apple\x27s CIK data:", dumpsInd 0 r]
         | none => []) := by
  intro lines
  induction lines with
  | nil => exact ⟨rfl, rfl, rfl⟩
  | cons l rest ih =>
    rcases simpleStep_cases l with ⟨h1, h2⟩ | ⟨r, h1, h2⟩
    · have hobs := scanObs_cons_skip simpleStep l rest h2
      have hspec : specFirstId2 (l :: rest) = specFirstId2 rest := by
        simp [specFirstId2, h1]
      obtain ⟨ih1, ih2, ih3⟩ := ih
      have hp : (simpleScan (l :: rest)).prints = (simpleScan rest).prints :=
        congrArg (fun t => t.1) hobs
      have hm : (simpleScan (l :: rest)).matched = (simpleScan rest).matched :=
        congrArg (fun t => t.2.1) hobs
      have he : (simpleScan (l :: rest)).err = (simpleScan rest).err :=
        congrArg (fun t => t.2.2) hobs
      exact ⟨by rw [hm, hspec]; exact ih1, by rw [he]; exact ih2,
        by rw [hp, hspec]; exact ih3⟩
    · have hspec : specFirstId2 (l :: rest) = some r := by
        simp [specFirstId2, h1]
      have hscan : simpleScan (l :: rest) =
          ⟨["SUCCESS! Apple\x27s CIK data:", dumpsInd 0 r], [l], some r, none⟩ := by
        show scanLoop simpleStep (l :: rest) = _
        simp [scanLoop, h2]
      rw [hscan, hspec]
      exact ⟨rfl, rfl, rfl⟩

/-- Claim C8: a line parsing to a JSON object that has a result member
without content and no id member makes the CIK loop of test-mcp.py raise an
uncaught KeyError, ending the program instead of skipping the line. -/
theorem cik_loop_keyerror_on_missing_id :
    json_loads "\x7b\x22result\x22: \x7b\x7d\x7d" = some (.obj (.cons "result" (.obj .nil) .nil))
  ∧ cikScan ["\x7b\x22result\x22: \x7b\x7d\x7d"] =
      ⟨[], ["\x7b\x22result\x22: \x7b\x7d\x7d"], none, some (.keyError "id")⟩
  ∧ (testMcpMain (.completed "x" "") (.completed "\x7b\x22result\x22: \x7b\x7d\x7d" "")).2
      = some (.keyError "id") :=
  ⟨rfl, rfl, rfl⟩

/-- Claim C9: when the tools/list loop of test-mcp.py finds a response whose
result carries a tools list, it prints the count, then name and description
truncated to sixty characters for at most the first five tools in list
order, then only a count of the remainder when more than five exist, and it
scans no line after the matching one. -/
theorem tools_list_first_five :
    ∀ pre line post response rv nds,
      (∀ x ∈ pre, json_loads x = none) →
      json_loads line = some response →
      pySubscript response "result" = .ok rv →
      pySubscript rv "tools" = .ok (.arr (mkTools nds)) →
      toolsScan (pre ++ line :: post) =
        ⟨("Found " ++ toString nds.length ++ " tools:")
            :: (nds.take 5).map (fun nd => "  - " ++ nd.1 ++ ": " ++ strTake 60 nd.2 ++ "...")
            ++ (if 5 < nds.length
                then ["  ... and " ++ toString (nds.length - 5) ++ " more tools"]
                else []),
         pre ++ [line], some response, none⟩ := by
  intro pre line post response rv nds hpre hline hres htools
  have hcond : toolsCond response = .ok true :=
    toolsCond_of response rv hres (subscript_ok_pyIn rv "tools" _ htools)
  have hbody := toolsListBody_spec response rv nds hres htools
  have hstep : toolsStep line =
      .halt (("Found " ++ toString nds.length ++ " tools:")
          :: (nds.take 5).map (fun nd => "  - " ++ nd.1 ++ ": " ++ strTake 60 nd.2 ++ "...")
          ++ (if 5 < nds.length
              then ["  ... and " ++ toString (nds.length - 5) ++ " more tools"]
              else []))
        (some response) none := by
    simp only [toolsStep, hline, hcond, hbody]
  have hskips : ∀ x ∈ pre, toolsStep x = .skip true :=
    fun x hx => toolsStep_skip_of_loads_none x (hpre x hx)
  show scanLoop toolsStep (pre ++ line :: post) = _
  rw [scanLoop_prepend_skips toolsStep pre (line :: post) hskips]
  simp [scanLoop, hstep]

set_option maxRecDepth 32768 in
/-- Witness for the tools/list theorem on a seven-tool response behind one
undecodable line, with a later line that is never scanned. -/
theorem tools_list_first_five_witness :
    toolsScan (["junk"] ++ toolsLine :: ["after"]) =
      ⟨("Found " ++ toString toolPairs.length ++ " tools:")
          :: (toolPairs.take 5).map (fun nd => "  - " ++ nd.1 ++ ": " ++ strTake 60 nd.2 ++ "...")
          ++ (if 5 < toolPairs.length
              then ["  ... and " ++ toString (toolPairs.length - 5) ++ " more tools"]
              else []),
       ["junk"] ++ [toolsLine], some toolsResponse, none⟩ :=
  tools_list_first_five ["junk"] toolsLine ["after"] toolsResponse
    (.obj (.cons "tools" (.arr (mkTools toolPairs)) .nil)) toolPairs
    (fun x hx => by rw [List.mem_singleton] at hx; subst hx; rfl)
    (by rfl) (by rfl) (by rfl)
